import Mathlib

/-!
Verification of the property-indexing and filter-matching core of the
Plant 3D model-derivative web application (src/app.py).

The payload handled by the application is parsed JSON held in Python
dictionaries.  We embed Python values as the inductive type `Val`:
`Val.null` is Python `None` (also the JSON null), dictionaries are
insertion-ordered association lists (Python dicts preserve insertion
order and have unique keys), and numbers are modelled as integers
(floating-point payload values are outside the scope of the claims).
Fallible Python code (attribute errors raised by calling `.get` on a
non-dict) is embedded with `Except Unit`.
-/

namespace Plant3d

/-- A Python/JSON value as it occurs in the model-derivative payload. -/
inductive Val where
  | null : Val
  | bool : Bool → Val
  | int : Int → Val
  | str : String → Val
  | dict : List (String × Val) → Val
  | list : List Val → Val

/-- First binding of key `k` in a dictionary, if any (Python `k in d` plus `d[k]`). -/
def dictFind? (es : List (String × α)) (k : String) : Option α :=
  (es.find? (fun p => p.1 == k)).map Prod.snd

/-- Python `d.get(k)`: the value bound to `k`, or `None` when absent. -/
def dictGet (es : List (String × Val)) (k : String) : Val :=
  match dictFind? es k with
  | some v => v
  | none => Val.null

/-- Python `k in d` on a dictionary. -/
def hasKey (es : List (String × α)) (k : String) : Bool :=
  es.any (fun p => p.1 == k)

/-- Python `d[k] = v` on a dictionary: update the binding in place if the key
exists (keeping its position), otherwise append a new binding. -/
def dictInsert : List (String × α) → String → α → List (String × α)
  | [], k, v => [(k, v)]
  | p :: rest, k, v => if p.1 = k then (k, v) :: rest else p :: dictInsert rest k v

/-- Python `x.get(k, default)` on an arbitrary value: an `AttributeError`
(modelled as `Except.error ()`) when the receiver is not a dict. -/
def pyGet (v : Val) (k : String) (default : Val) : Except Unit Val :=
  match v with
  | Val.dict es =>
      Except.ok (match dictFind? es k with
        | some x => x
        | none => default)
  | _ => Except.error ()

/-- The apostrophe character used by Python `repr` for strings. -/
def sq : String := (Char.ofNat 39).toString

mutual

/-- Python `repr` of a value.  Character escaping inside strings is not
modelled (no claim evaluates the repr of a string containing quotes). -/
def pyRepr : Val → String
  | Val.null => "None"
  | Val.bool b => if b then "True" else "False"
  | Val.int n => toString n
  | Val.str s => sq ++ s ++ sq
  | Val.dict es => "\x7b" ++ pyReprEntries es ++ "\x7d"
  | Val.list xs => "[" ++ pyReprItems xs ++ "]"

/-- Python `repr` of the entries of a dict, comma separated. -/
def pyReprEntries : List (String × Val) → String
  | [] => ""
  | [p] => sq ++ p.1 ++ sq ++ ": " ++ pyRepr p.2
  | p :: q :: rest => sq ++ p.1 ++ sq ++ ": " ++ pyRepr p.2 ++ ", " ++ pyReprEntries (q :: rest)

/-- Python `repr` of the items of a list, comma separated. -/
def pyReprItems : List Val → String
  | [] => ""
  | [v] => pyRepr v
  | v :: w :: rest => pyRepr v ++ ", " ++ pyReprItems (w :: rest)

end

/-- Python `str()` of a value: the string itself for strings, `repr` otherwise. -/
def pyStr : Val → String
  | Val.str s => s
  | v => pyRepr v

/-- Python `s.strip()`: remove leading and trailing whitespace.  Implemented
over the character list so that it is kernel-computable; whitespace is
the ASCII set of `Char.isWhitespace` (Python additionally strips some
rarer Unicode whitespace, which no claim exercises). -/
def pyStrip (s : String) : String :=
  String.mk (((s.data.dropWhile Char.isWhitespace).reverse.dropWhile Char.isWhitespace).reverse)

/-- Python `s.lower()`: ASCII lower-casing, over the character list so that
it is kernel-computable. -/
def pyLower (s : String) : String :=
  String.mk (s.data.map Char.toLower)

/-- Python `x is None`: identity with the `None` singleton. -/
def isNull : Val → Bool
  | Val.null => true
  | _ => false

/-- Python truthiness of a value (`if not x`). -/
def isTruthy : Val → Bool
  | Val.null => false
  | Val.bool b => b
  | Val.int n => n != 0
  | Val.str s => s != ""
  | Val.dict es => !es.isEmpty
  | Val.list xs => !xs.isEmpty

/-- `find_prop_any_group` (src/app.py:38-50), inner loop over the groups:
return the value under `key` from the first group that is a dict and
contains `key`; `Val.null` when no group does. -/
def findInGroups : List (String × Val) → String → Val
  | [], _ => Val.null
  | (_, g) :: rest, key =>
    match g with
    | Val.dict entries =>
      if hasKey entries key then dictGet entries key
      else findInGroups rest key
    | _ => findInGroups rest key

/-- `find_prop_any_group(obj_props, key)` (src/app.py:38-50): searches every
group of the per-element property mapping for `key`; returns `None`
(`Val.null`) when `obj_props` is not a dict or no group contains the key. -/
def find_prop_any_group (obj_props : Val) (key : String) : Val :=
  match obj_props with
  | Val.dict groups => findInGroups groups key
  | _ => Val.null

/-- The default P&ID alias list of `build_tag_index` (src/app.py:56). -/
def pidKeysDefault : List String := ["PnPID", "PId", "PID", "P&ID"]

/-- The P&ID probing loop (src/app.py:97-103 and 152-158): the first alias
whose lookup is non-`None`, else `None`. -/
def probePid : List String → Val → Val
  | [], _ => Val.null
  | k :: rest, props =>
    let v := find_prop_any_group props k
    if isNull v then probePid rest props else v

/-- One entry of the tag index (src/app.py:108-113). -/
structure TagRecord where
  objectid : Val
  name : Val
  pid : Val
  properties : Val

/-- The duplicate-tag suffix (src/app.py:119):
`f"#objectid"` when the objectid is not `None`, else `"#dup"`. -/
def suffixOf (r : TagRecord) : String :=
  if isNull r.objectid then "#dup" else "#" ++ pyStr r.objectid

/-- Per-element eligibility and record construction of `build_tag_index`
(src/app.py:81-113): `none` when the element is skipped, otherwise the
trimmed tag together with the record to insert. -/
def tagElig (pid_keys : List String) (tag_key : String) (obj : Val) : Option (String × TagRecord) :=
  match obj with
  | Val.dict oes =>
    let obj_props := dictGet oes "properties"
    match obj_props with
    | Val.dict _ =>
      let tag_val := find_prop_any_group obj_props tag_key
      if isNull tag_val then none
      else
        let tag := pyStrip (pyStr tag_val)
        if tag = "" then none
        else
          let pid := probePid pid_keys obj_props
          if isNull pid then none
          else some (tag, ⟨dictGet oes "objectid", dictGet oes "name", pid, obj_props⟩)
    | _ => none
  | _ => none

/-- The insertion loop of `build_tag_index` (src/app.py:81-121). -/
def tagLoop (pid_keys : List String) (tag_key : String) :
    List Val → List (String × TagRecord) → List (String × TagRecord)
  | [], out => out
  | obj :: rest, out =>
    match tagElig pid_keys tag_key obj with
    | none => tagLoop pid_keys tag_key rest out
    | some (tag, rec) =>
      if hasKey out tag then
        tagLoop pid_keys tag_key rest (dictInsert out (tag ++ suffixOf rec) rec)
      else
        tagLoop pid_keys tag_key rest (dictInsert out tag rec)

/-- `build_tag_index(properties_payload)` (src/app.py:53-122).
`payload.get("data", {})` and `data.get("collection", [])` raise an
`AttributeError` when their receiver is not a dict; a non-list collection
yields the empty index. -/
def build_tag_index (payload : Val)
    (pid_keys : List String := pidKeysDefault) (tag_key : String := "Tag") :
    Except Unit (List (String × TagRecord)) :=
  match pyGet payload "data" (Val.dict []) with
  | Except.error e => Except.error e
  | Except.ok data =>
    match pyGet data "collection" (Val.list []) with
    | Except.error e => Except.error e
    | Except.ok collection =>
      match collection with
      | Val.list objs => Except.ok (tagLoop pid_keys tag_key objs [])
      | _ => Except.ok []

/-- The Class Name bucket resolution (src/app.py:161-167): `None` and
blank-after-trim values fall into the literal `"Unknown"` bucket. -/
def classBucket (cn : Val) : String :=
  if isNull cn then "Unknown"
  else
    let s := pyStrip (pyStr cn)
    if s = "" then "Unknown" else s

/-- Per-element step of `build_class_name_counts` (src/app.py:143-167):
`none` when the element is skipped, otherwise the bucket it is counted in. -/
def elemClassKey (obj : Val) : Option String :=
  match obj with
  | Val.dict oes =>
    let obj_props := dictGet oes "properties"
    match obj_props with
    | Val.dict _ =>
      if isNull (probePid pidKeysDefault obj_props) then none
      else some (classBucket (find_prop_any_group obj_props "Class Name"))
    | _ => none
  | _ => none

/-- Count stored under `k` (Python `counts.get(k, 0)`). -/
def getCount (m : List (String × Nat)) (k : String) : Nat :=
  match dictFind? m k with
  | some n => n
  | none => 0

/-- `counts[k] = counts.get(k, 0) + 1` (src/app.py:169). -/
def bumpCount (m : List (String × Nat)) (k : String) : List (String × Nat) :=
  dictInsert m k (getCount m k + 1)

/-- The counting loop of `build_class_name_counts` (src/app.py:143-169). -/
def classLoop : List Val → List (String × Nat) → List (String × Nat)
  | [], counts => counts
  | obj :: rest, counts =>
    match elemClassKey obj with
    | none => classLoop rest counts
    | some k => classLoop rest (bumpCount counts k)

/-- `build_class_name_counts(properties_payload)` (src/app.py:125-171). -/
def build_class_name_counts (payload : Val) : Except Unit (List (String × Nat)) :=
  match pyGet payload "data" (Val.dict []) with
  | Except.error e => Except.error e
  | Except.ok data =>
    match pyGet data "collection" (Val.list []) with
    | Except.error e => Except.error e
    | Except.ok collection =>
      match collection with
      | Val.list objs => Except.ok (classLoop objs [])
      | _ => Except.ok []

/-- A well-formed payload envelope around a collection of elements. -/
def mkPayload (objs : List Val) : Val :=
  Val.dict [("data", Val.dict [("collection", Val.list objs)])]

/-! The QA/QC filter matcher / highlight resolver (src/app.py:562-655). -/

/-- One row of the QA/QC dynamic array as it reaches `qaqc_view`
(src/app.py:584-594): optional class-name multi-select, optional property
option, optional free-text expected value, and the hex string of the
optional colour field. -/
structure QcFilter where
  class_names : Option (List String)
  property_name : Option String
  expected_value : Option String
  highlight_color : Option String

/-- One entry of `filter_criteria` (src/app.py:596-601). -/
structure Criteria where
  class_names : List String
  property_name : Option String
  expected_value : String
  color : String

/-- The `filter_criteria` construction loop (src/app.py:583-601): rows with a
falsy class-name list are dropped, the expected value is defaulted to the
empty string and stripped, and the colour defaults to `"#FF0000"`. -/
def buildCriteria : List QcFilter → List Criteria
  | [] => []
  | f :: rest =>
    match f.class_names with
    | none => buildCriteria rest
    | some [] => buildCriteria rest
    | some cns =>
      { class_names := cns
        property_name := f.property_name
        expected_value := pyStrip (f.expected_value.getD "")
        color := f.highlight_color.getD "#FF0000" } :: buildCriteria rest

/-- Python truthiness of an optional string (an unset option field is `None`). -/
def strOptTruthy : Option String → Bool
  | none => false
  | some s => s != ""

/-- Python `obj_class_name not in criteria["class_names"]` (src/app.py:630),
negated: membership of a raw value in a list of strings.  Python `in` uses
`==`, and equality between a string and a value of any other type is
`False`, so only a value that is literally one of the strings is a member. -/
def valInStrList (v : Val) (l : List String) : Bool :=
  match v with
  | Val.str s => l.contains s
  | _ => false

/-- The per-rule check of the resolver (src/app.py:628-648): class-set
membership, then the property/expected-value comparison or the bare
existence check, mirroring the `continue` statements of the source. -/
def matchRule (c : Criteria) (obj_props : Val) (obj_class_name : Val) : Bool :=
  if !valInStrList obj_class_name c.class_names then false
  else if strOptTruthy c.property_name && (c.expected_value != "") then
    let actual := find_prop_any_group obj_props (c.property_name.getD "")
    if isNull actual then false
    else pyLower (pyStrip (pyStr actual)) == pyLower c.expected_value
  else if strOptTruthy c.property_name && (c.expected_value == "") then
    let actual := find_prop_any_group obj_props (c.property_name.getD "")
    !isNull actual
  else true

/-- One highlight entry handed to the viewer (src/app.py:651-654). -/
structure Highlight where
  externalElementId : Val
  color : String

/-- Element eligibility in the resolver loop (src/app.py:610-625): the
element must be a dict with a dict `properties`, a truthy `externalId`,
and a non-`None` `Class Name`. -/
def elemElig (obj : Val) : Option (Val × Val × Val) :=
  match obj with
  | Val.dict oes =>
    let obj_props := dictGet oes "properties"
    match obj_props with
    | Val.dict _ =>
      let ext := dictGet oes "externalId"
      if !isTruthy ext then none
      else
        let cls := find_prop_any_group obj_props "Class Name"
        if isNull cls then none
        else some (obj_props, ext, cls)
    | _ => none
  | _ => none

/-- The inner rule loop with its `break` (src/app.py:628-655): the first
criteria entry whose checks all pass, if any. -/
def firstMatch : List Criteria → Val → Val → Option Criteria
  | [], _, _ => none
  | c :: rest, props, cls =>
    if matchRule c props cls then some c else firstMatch rest props cls

/-- The at-most-one highlight an element contributes (src/app.py:610-655). -/
def elemHighlight (cs : List Criteria) (obj : Val) : Option Highlight :=
  match elemElig obj with
  | none => none
  | some (props, ext, cls) =>
    match firstMatch cs props cls with
    | none => none
    | some c => some ⟨ext, c.color⟩

/-- The element loop of the resolver (src/app.py:608-655): one highlight per
matched element, in collection order. -/
def highlightLoop (cs : List Criteria) : List Val → List Highlight
  | [] => []
  | obj :: rest =>
    match elemHighlight cs obj with
    | some h => h :: highlightLoop cs rest
    | none => highlightLoop cs rest

/-- The highlight computation of `qaqc_view` for a well-formed collection
(src/app.py:562-655): build the criteria from the filter rows and run the
element loop; with no usable criteria no highlighting is attempted. -/
def qaqcHighlights (qc_filters : List QcFilter) (collection : List Val) : List Highlight :=
  match buildCriteria qc_filters with
  | [] => []
  | cs => highlightLoop cs collection

/-! Spec-side definitions, used to state the claims about property lookup.
These follow the wording of the specification, not the source. -/

/-- A group value contains `key`: it is a dict with a binding for `key`. -/
def groupHas (g : Val) (key : String) : Bool :=
  match g with
  | Val.dict es => hasKey es key
  | _ => false

/-- The value a group holds under `key` (`Val.null` when it is not a dict
or lacks the key). -/
def groupGet (g : Val) (key : String) : Val :=
  match g with
  | Val.dict es => dictGet es key
  | _ => Val.null

/-- Spec wording for C5: some group of the property mapping contains the
requested key. -/
def anyGroupContains (props : Val) (key : String) : Bool :=
  match props with
  | Val.dict gs => gs.any (fun p => groupHas p.2 key)
  | _ => false

/-- Spec wording: the value under `key` in the first group that contains it,
`none` when no group does.  Unlike the source function, this distinguishes
a key bound to `None` from an absent key. -/
def firstFoundValue (props : Val) (key : String) : Option Val :=
  match props with
  | Val.dict gs => (gs.find? (fun p => groupHas p.2 key)).map (fun p => groupGet p.2 key)
  | _ => none

/-! Basic lemmas about the dictionary operations and the group search. -/

theorem isNull_iff (v : Val) : isNull v = true ↔ v = Val.null := by
  cases v <;> simp [isNull]

theorem findInGroups_cons (n : String) (g : Val) (rest : List (String × Val)) (key : String) :
    findInGroups ((n, g) :: rest) key =
      if groupHas g key then groupGet g key else findInGroups rest key := by
  cases g <;> simp [findInGroups, groupHas, groupGet]

theorem findInGroups_firstFound (gs : List (String × Val)) (key : String) :
    findInGroups gs key =
      match (gs.find? (fun p => groupHas p.2 key)).map (fun p => groupGet p.2 key) with
      | some v => v
      | none => Val.null := by
  induction gs with
  | nil => rfl
  | cons p rest ih =>
    obtain ⟨n, g⟩ := p
    rw [findInGroups_cons]
    by_cases h : groupHas g key
    · rw [List.find?_cons_of_pos _ (by simpa using h)]
      simp [h]
    · rw [List.find?_cons_of_neg _ (by simpa using h)]
      simp [h, ih]

theorem find_prop_firstFound (props : Val) (key : String) :
    find_prop_any_group props key =
      match firstFoundValue props key with
      | some v => v
      | none => Val.null := by
  cases props <;>
    simp [find_prop_any_group, firstFoundValue, findInGroups_firstFound]

theorem dictFind?_insert_self (m : List (String × α)) (k : String) (v : α) :
    dictFind? (dictInsert m k v) k = some v := by
  induction m with
  | nil => simp [dictInsert, dictFind?]
  | cons p rest ih =>
    rw [dictInsert]
    by_cases h : p.1 = k
    · simp [h, dictFind?]
    · rw [if_neg h]
      rw [dictFind?, List.find?_cons_of_neg _ (by simpa using h)]
      exact ih

theorem dictFind?_insert_ne (m : List (String × α)) (k kq : String) (v : α) (h : kq ≠ k) :
    dictFind? (dictInsert m k v) kq = dictFind? m kq := by
  induction m with
  | nil =>
    rw [dictInsert, dictFind?, dictFind?,
      List.find?_cons_of_neg _ (by simpa using Ne.symm h)]
  | cons p rest ih =>
    rw [dictInsert]
    by_cases hp : p.1 = k
    · rw [if_pos hp, dictFind?, dictFind?,
        List.find?_cons_of_neg _ (by simpa using Ne.symm h),
        List.find?_cons_of_neg _ (by rw [hp]; simpa using Ne.symm h)]
    · rw [if_neg hp]
      by_cases hq : p.1 = kq
      · rw [dictFind?, dictFind?, List.find?_cons_of_pos _ (by simpa using hq),
          List.find?_cons_of_pos _ (by simpa using hq)]
      · rw [dictFind?, dictFind?, List.find?_cons_of_neg _ (by simpa using hq),
          List.find?_cons_of_neg _ (by simpa using hq)]
        exact ih

theorem mem_keys_insert (m : List (String × α)) (k s : String) (v : α) :
    s ∈ (dictInsert m k v).map Prod.fst ↔ s = k ∨ s ∈ m.map Prod.fst := by
  induction m with
  | nil => simp [dictInsert]
  | cons p rest ih =>
    rw [dictInsert]
    by_cases hp : p.1 = k
    · rw [if_pos hp]
      simp only [List.map_cons, List.mem_cons, hp]
      tauto
    · rw [if_neg hp]
      simp only [List.map_cons, List.mem_cons, ih]
      tauto

theorem hasKey_iff_mem_keys (m : List (String × α)) (k : String) :
    hasKey m k = true ↔ k ∈ m.map Prod.fst := by
  simp only [hasKey, List.any_eq_true, List.mem_map, beq_iff_eq]

theorem find?_of_filter_singleton {β : Type} (pred : β → Bool) (p : β) :
    ∀ gs : List β, gs.filter pred = [p] → gs.find? pred = some p := by
  intro gs
  induction gs with
  | nil => intro h; simp at h
  | cons a rest ih =>
    intro h
    by_cases ha : pred a
    · rw [List.filter_cons_of_pos ha] at h
      obtain ⟨h1, h2⟩ := List.cons_eq_cons.mp h
      rw [List.find?_cons_of_pos _ ha, h1]
    · rw [List.filter_cons_of_neg ha] at h
      rw [List.find?_cons_of_neg _ ha]
      exact ih h

/-- C5, as stated, is refuted here: with a single group binding `"k"` to
`None`, the lookup returns the absent signal even though a group does
contain the requested key, so callers cannot distinguish a `None`-valued
property from a missing one. -/
theorem c5_counterexample :
    ¬ (find_prop_any_group (Val.dict [("G", Val.dict [("k", Val.null)])]) "k" = Val.null ↔
       anyGroupContains (Val.dict [("G", Val.dict [("k", Val.null)])]) "k" = false) := by
  intro h
  have h1 : find_prop_any_group (Val.dict [("G", Val.dict [("k", Val.null)])]) "k" = Val.null := rfl
  have h2 := h.mp h1
  have h3 : anyGroupContains (Val.dict [("G", Val.dict [("k", Val.null)])]) "k" = true := rfl
  rw [h3] at h2
  exact Bool.noConfusion h2

/-- C5 (amended): `findPropertyAnyGroup` returns the absent signal iff either
no group contains the requested key or the first group (in iteration
order) that contains it binds it to `None`; callers can distinguish a
property that exists with an empty-string value from a missing one, but
not a property whose value is `None`. -/
theorem c5_absent_signal (props : Val) (key : String) :
    find_prop_any_group props key = Val.null ↔
      (firstFoundValue props key = none ∨ firstFoundValue props key = some Val.null) := by
  rw [find_prop_firstFound]
  cases h : firstFoundValue props key with
  | none => simp
  | some v => simp

/-- C8: the lookup returns the value under the key from the first group (in
iteration order) that contains it — in particular the first group's value
wins when two groups share the key — and when exactly one group contains
the key the result is invariant under any reordering of the groups. -/
theorem c8_group_order (key : String) :
    (∀ (pre : List (String × Val)) (n : String) (g : Val) (rest : List (String × Val)),
        (∀ p ∈ pre, groupHas p.2 key = false) → groupHas g key = true →
        find_prop_any_group (Val.dict (pre ++ (n, g) :: rest)) key = groupGet g key)
    ∧ (∀ (gs gs' : List (String × Val)), gs.Perm gs' →
        (gs.filter (fun p => groupHas p.2 key)).length = 1 →
        find_prop_any_group (Val.dict gs) key = find_prop_any_group (Val.dict gs') key) := by
  constructor
  · intro pre n g rest hpre hg
    rw [find_prop_any_group]
    induction pre with
    | nil =>
      rw [List.nil_append, findInGroups_cons, if_pos hg]
    | cons q pre ih =>
      rw [List.cons_append]
      obtain ⟨qn, qg⟩ := q
      rw [findInGroups_cons]
      have hq : groupHas qg key = false := hpre (qn, qg) (List.mem_cons_self _ _)
      rw [hq]
      simp only [Bool.false_eq_true, if_false]
      exact ih (fun p hp => hpre p (List.mem_cons_of_mem _ hp))
  · intro gs gs' hperm hone
    obtain ⟨p, hp⟩ := List.length_eq_one.mp hone
    have hperm2 : (gs.filter (fun q => groupHas q.2 key)).Perm
        (gs'.filter (fun q => groupHas q.2 key)) := hperm.filter _
    rw [hp] at hperm2
    have hp' : gs'.filter (fun q => groupHas q.2 key) = [p] :=
      (List.singleton_perm.mp hperm2).symm
    rw [find_prop_any_group, find_prop_any_group,
      findInGroups_firstFound, findInGroups_firstFound,
      find?_of_filter_singleton _ p gs hp, find?_of_filter_singleton _ p gs' hp']

/-- Witness for C8: with groups G0 (no Tag), G1 (Tag "A"), G2 (Tag "B"),
the lookup returns G1's value; and with a unique Tag-bearing group the
result is unchanged when the two groups are swapped. -/
theorem c8_group_order_witness :
    find_prop_any_group
        (Val.dict [("G0", Val.dict [("Other", Val.str "x")]),
                   ("G1", Val.dict [("Tag", Val.str "A")]),
                   ("G2", Val.dict [("Tag", Val.str "B")])]) "Tag" =
      groupGet (Val.dict [("Tag", Val.str "A")]) "Tag"
    ∧ find_prop_any_group
        (Val.dict [("G1", Val.dict [("Tag", Val.str "A")]),
                   ("G0", Val.dict [("Other", Val.str "x")])]) "Tag" =
      find_prop_any_group
        (Val.dict [("G0", Val.dict [("Other", Val.str "x")]),
                   ("G1", Val.dict [("Tag", Val.str "A")])]) "Tag" := by
  constructor
  · exact (c8_group_order "Tag").1 [("G0", Val.dict [("Other", Val.str "x")])] "G1"
      (Val.dict [("Tag", Val.str "A")]) [("G2", Val.dict [("Tag", Val.str "B")])]
      (by decide) (by decide)
  · exact (c8_group_order "Tag").2 _ _
      (List.Perm.swap ("G0", Val.dict [("Other", Val.str "x")])
        ("G1", Val.dict [("Tag", Val.str "A")]) []) (by decide)

/-- C6, as stated, is refuted here: on a payload that is not a mapping, and
on a payload whose "data" field is not a mapping, the builders raise an
`AttributeError` (calling `.get` on a non-dict) instead of returning an
empty mapping. -/
theorem c6_counterexample :
    build_tag_index (Val.str "x") = Except.error ()
    ∧ build_class_name_counts (Val.dict [("data", Val.str "y")]) = Except.error () :=
  ⟨rfl, rfl⟩

/-- C6 (amended): the builders tolerate a malformed collection — an absent
"data" field, an absent collection, or a non-list collection all yield an
empty mapping — but a payload that is not a mapping, or a present "data"
field that is not a mapping, raises a fault (`AttributeError` from `.get`)
rather than returning an empty mapping. -/
theorem c6_malformed (p : Val) :
    ((∀ es : List (String × Val), p ≠ Val.dict es) →
        build_tag_index p = Except.error () ∧ build_class_name_counts p = Except.error ())
    ∧ (∀ es : List (String × Val), p = Val.dict es →
        (dictFind? es "data" = none →
          build_tag_index p = Except.ok [] ∧ build_class_name_counts p = Except.ok [])
        ∧ (∀ d : Val, dictFind? es "data" = some d → (∀ ds : List (String × Val), d ≠ Val.dict ds) →
            build_tag_index p = Except.error () ∧ build_class_name_counts p = Except.error ())
        ∧ (∀ ds : List (String × Val), dictFind? es "data" = some (Val.dict ds) →
            dictFind? ds "collection" = none →
            build_tag_index p = Except.ok [] ∧ build_class_name_counts p = Except.ok [])
        ∧ (∀ (ds : List (String × Val)) (c : Val),
            dictFind? es "data" = some (Val.dict ds) → dictFind? ds "collection" = some c →
            (∀ l : List Val, c ≠ Val.list l) →
            build_tag_index p = Except.ok [] ∧ build_class_name_counts p = Except.ok [])) := by
  constructor
  · intro hnd
    cases p with
    | dict es => exact absurd rfl (hnd es)
    | null => exact ⟨rfl, rfl⟩
    | bool b => exact ⟨rfl, rfl⟩
    | int n => exact ⟨rfl, rfl⟩
    | str s => exact ⟨rfl, rfl⟩
    | list xs => exact ⟨rfl, rfl⟩
  · rintro es rfl
    refine ⟨?_, ?_, ?_, ?_⟩
    · intro hdata
      constructor <;>
        · simp only [build_tag_index, build_class_name_counts, pyGet, hdata]
          rfl
    · intro d hdata hnd
      have hd : pyGet d "collection" (Val.list []) = Except.error () := by
        cases d with
        | dict ds => exact absurd rfl (hnd ds)
        | null => rfl
        | bool b => rfl
        | int n => rfl
        | str s => rfl
        | list xs => rfl
      constructor <;> simp [build_tag_index, build_class_name_counts, pyGet, hdata, hd]
    · intro ds hdata hcoll
      constructor <;>
        · simp only [build_tag_index, build_class_name_counts, pyGet, hdata, hcoll]
          rfl
    · intro ds c hdata hcoll hnl
      cases c with
      | list xs => exact absurd rfl (hnl xs)
      | null =>
        constructor <;> simp [build_tag_index, build_class_name_counts, pyGet, hdata, hcoll]
      | bool b =>
        constructor <;> simp [build_tag_index, build_class_name_counts, pyGet, hdata, hcoll]
      | int n =>
        constructor <;> simp [build_tag_index, build_class_name_counts, pyGet, hdata, hcoll]
      | str s =>
        constructor <;> simp [build_tag_index, build_class_name_counts, pyGet, hdata, hcoll]
      | dict ds2 =>
        constructor <;> simp [build_tag_index, build_class_name_counts, pyGet, hdata, hcoll]

/-- Witness for C6 (amended), instantiating each malformedness case at a
concrete payload. -/
theorem c6_malformed_witness :
    (build_tag_index (Val.list []) = Except.error ()
      ∧ build_class_name_counts (Val.list []) = Except.error ())
    ∧ (build_tag_index (Val.dict []) = Except.ok []
      ∧ build_class_name_counts (Val.dict []) = Except.ok [])
    ∧ (build_tag_index (Val.dict [("data", Val.int 3)]) = Except.error ()
      ∧ build_class_name_counts (Val.dict [("data", Val.int 3)]) = Except.error ())
    ∧ (build_tag_index (Val.dict [("data", Val.dict [])]) = Except.ok []
      ∧ build_class_name_counts (Val.dict [("data", Val.dict [])]) = Except.ok [])
    ∧ (build_tag_index (Val.dict [("data", Val.dict [("collection", Val.int 7)])]) = Except.ok []
      ∧ build_class_name_counts (Val.dict [("data", Val.dict [("collection", Val.int 7)])])
          = Except.ok []) := by
  refine ⟨?_, ?_, ?_, ?_, ?_⟩
  · exact (c6_malformed (Val.list [])).1 (fun es h => nomatch h)
  · exact ((c6_malformed (Val.dict [])).2 [] rfl).1 rfl
  · exact ((c6_malformed (Val.dict [("data", Val.int 3)])).2 _ rfl).2.1
      (Val.int 3) rfl (fun ds h => nomatch h)
  · exact ((c6_malformed (Val.dict [("data", Val.dict [])])).2 _ rfl).2.2.1 [] rfl rfl
  · exact ((c6_malformed (Val.dict [("data", Val.dict [("collection", Val.int 7)])])).2
      _ rfl).2.2.2 [("collection", Val.int 7)] (Val.int 7) rfl rfl (fun l h => nomatch h)

/-- C9: when the first group (in iteration order) containing key `k` binds
it to `None`, the lookup returns `None` — whatever later groups hold —
and each caller then treats the element as if `k` were absent: tag
resolution skips the element, P&ID probing moves past the alias,
class-name resolution yields the "Unknown" bucket, and filter matching
fails the property check. -/
theorem c9_null_first_group (props : Val) (k : String)
    (h : firstFoundValue props k = some Val.null) :
    find_prop_any_group props k = Val.null
    ∧ (∀ oes : List (String × Val), k = "Tag" → dictGet oes "properties" = props →
        tagElig pidKeysDefault "Tag" (Val.dict oes) = none)
    ∧ (∀ rest : List String, probePid (k :: rest) props = probePid rest props)
    ∧ (k = "Class Name" → classBucket (find_prop_any_group props k) = "Unknown")
    ∧ (∀ (c : Criteria) (cls : Val), c.property_name = some k → k ≠ "" →
        matchRule c props cls = false) := by
  have hnull : find_prop_any_group props k = Val.null := by
    rw [find_prop_firstFound, h]
  obtain ⟨gs, rfl⟩ : ∃ gs, props = Val.dict gs := by
    cases props with
    | dict gs => exact ⟨gs, rfl⟩
    | null => exact absurd h (by simp [firstFoundValue])
    | bool b => exact absurd h (by simp [firstFoundValue])
    | int n => exact absurd h (by simp [firstFoundValue])
    | str s => exact absurd h (by simp [firstFoundValue])
    | list xs => exact absurd h (by simp [firstFoundValue])
  refine ⟨hnull, ?_, ?_, ?_, ?_⟩
  · intro oes hk hprops
    subst hk
    simp only [tagElig, hprops, hnull, isNull]
    simp
  · intro rest
    simp only [probePid, hnull, isNull, if_true]
  · intro hk
    rw [hnull]
    rfl
  · intro c cls hpn hk0
    rw [matchRule, hpn]
    by_cases hm : valInStrList cls c.class_names
    · rw [hm]
      have hso : strOptTruthy (some k) = true := by
        simp [strOptTruthy, hk0]
      by_cases hev : c.expected_value = ""
      · simp [hso, hev, Option.getD, hnull, isNull]
      · simp [hso, hev, Option.getD, hnull, isNull]
    · simp only [Bool.not_eq_true] at hm
      rw [hm]
      rfl

/-- Witness for C9: a property mapping whose first group binds the key to
`None` while a later group holds a real value, instantiated for the tag
key, a P&ID alias, the class-name key, and a filter property. -/
theorem c9_null_first_group_witness :
    find_prop_any_group
        (Val.dict [("G1", Val.dict [("Tag", Val.null)]),
                   ("G2", Val.dict [("Tag", Val.str "T-1")])]) "Tag" = Val.null
    ∧ tagElig pidKeysDefault "Tag"
        (Val.dict [("properties",
          Val.dict [("G1", Val.dict [("Tag", Val.null)]),
                    ("G2", Val.dict [("Tag", Val.str "T-1")])])]) = none
    ∧ probePid ["PnPID", "PId", "PID", "P&ID"]
        (Val.dict [("G1", Val.dict [("PnPID", Val.null)]),
                   ("G2", Val.dict [("PnPID", Val.int 7)])]) =
      probePid ["PId", "PID", "P&ID"]
        (Val.dict [("G1", Val.dict [("PnPID", Val.null)]),
                   ("G2", Val.dict [("PnPID", Val.int 7)])])
    ∧ classBucket (find_prop_any_group
        (Val.dict [("G1", Val.dict [("Class Name", Val.null)]),
                   ("G2", Val.dict [("Class Name", Val.str "Valve")])]) "Class Name")
        = "Unknown"
    ∧ matchRule ⟨["Valve"], some "Status", "Open", "#FF0000"⟩
        (Val.dict [("G1", Val.dict [("Status", Val.null)]),
                   ("G2", Val.dict [("Status", Val.str "Open")])])
        (Val.str "Valve") = false := by
  refine ⟨?_, ?_, ?_, ?_, ?_⟩
  · exact (c9_null_first_group
      (Val.dict [("G1", Val.dict [("Tag", Val.null)]),
                 ("G2", Val.dict [("Tag", Val.str "T-1")])]) "Tag" rfl).1
  · exact (c9_null_first_group
        (Val.dict [("G1", Val.dict [("Tag", Val.null)]),
                   ("G2", Val.dict [("Tag", Val.str "T-1")])]) "Tag" rfl).2.1
      [("properties", Val.dict [("G1", Val.dict [("Tag", Val.null)]),
                                ("G2", Val.dict [("Tag", Val.str "T-1")])])] rfl rfl
  · exact (c9_null_first_group
      (Val.dict [("G1", Val.dict [("PnPID", Val.null)]),
                 ("G2", Val.dict [("PnPID", Val.int 7)])]) "PnPID" rfl).2.2.1
      ["PId", "PID", "P&ID"]
  · exact (c9_null_first_group
      (Val.dict [("G1", Val.dict [("Class Name", Val.null)]),
                 ("G2", Val.dict [("Class Name", Val.str "Valve")])]) "Class Name" rfl).2.2.2.1 rfl
  · exact (c9_null_first_group
      (Val.dict [("G1", Val.dict [("Status", Val.null)]),
                 ("G2", Val.dict [("Status", Val.str "Open")])]) "Status" rfl).2.2.2.2
      ⟨["Valve"], some "Status", "Open", "#FF0000"⟩ (Val.str "Valve") rfl
      (by decide)

/-- C3, as stated, is refuted here: a rule whose expectedValue is the
non-empty string "  " (whitespace only) is normalised by the criteria
builder to an empty expected value and degrades to a bare existence
check, so it matches an element whose Status is "x", although "x" does
not equal the expected value's trimmed lower-cased form. -/
theorem c3_counterexample :
    buildCriteria [⟨some ["Valve"], some "Status", some "  ", some "#123456"⟩] =
      [⟨["Valve"], some "Status", "", "#123456"⟩]
    ∧ matchRule ⟨["Valve"], some "Status", "", "#123456"⟩
        (Val.dict [("G", Val.dict [("Status", Val.str "x")])]) (Val.str "Valve") = true
    ∧ pyLower (pyStrip (pyStr (find_prop_any_group
          (Val.dict [("G", Val.dict [("Status", Val.str "x")])]) "Status")))
        ≠ pyLower (pyStrip "  ") := by
  refine ⟨rfl, rfl, ?_⟩
  decide

/-- C3 (amended): for every rule row that specifies a property name and an
expected value that is non-empty after trimming, and every element value
passing the rule's class-set check, the built rule matches iff the named
property resolves to a non-None value whose string form, trimmed and
lower-cased, equals the expected value's trimmed lower-cased form. -/
theorem c3_expected_value_match (f : QcFilter) (cns : List String) (pn : String)
    (props cls : Val) (c : Criteria)
    (hcns : f.class_names = some cns) (hne : cns ≠ [])
    (hpn : f.property_name = some pn) (hpn0 : pn ≠ "")
    (hev : pyStrip (f.expected_value.getD "") ≠ "")
    (hcls : valInStrList cls cns = true)
    (hc : buildCriteria [f] = [c]) :
    matchRule c props cls = true ↔
      (isNull (find_prop_any_group props pn) = false ∧
       pyLower (pyStrip (pyStr (find_prop_any_group props pn)))
         = pyLower (pyStrip (f.expected_value.getD ""))) := by
  have hc2 : c = ⟨cns, some pn, pyStrip (f.expected_value.getD ""),
      f.highlight_color.getD "#FF0000"⟩ := by
    cases cns with
    | nil => exact absurd rfl hne
    | cons a as =>
      rw [buildCriteria, hcns] at hc
      simp only [buildCriteria] at hc
      obtain ⟨h1, h2⟩ := List.cons_eq_cons.mp hc
      rw [← h1, hpn]
  subst hc2
  simp only [matchRule, hcls, Bool.not_true, Bool.false_eq_true, if_false]
  have hso : strOptTruthy (some pn) = true := by
    simp [strOptTruthy, hpn0]
  have hev2 : (pyStrip (f.expected_value.getD "") != "") = true := by
    simp [hev]
  simp only [hso, hev2, Bool.and_self, if_true, Option.getD_some]
  cases hn : isNull (find_prop_any_group props pn) with
  | true => simp
  | false => simp

/-- Witness for C3 (amended): the rule (Status, "Open") matches an element
whose Status property holds "  OPEN ". -/
theorem c3_expected_value_match_witness :
    matchRule ⟨["Valve"], some "Status", "Open", "#FF0000"⟩
      (Val.dict [("G", Val.dict [("Status", Val.str "  OPEN ")])]) (Val.str "Valve") = true := by
  exact (c3_expected_value_match
      ⟨some ["Valve"], some "Status", some "Open", some "#FF0000"⟩ ["Valve"] "Status"
      (Val.dict [("G", Val.dict [("Status", Val.str "  OPEN ")])]) (Val.str "Valve")
      ⟨["Valve"], some "Status", "Open", "#FF0000"⟩
      rfl (by decide) rfl (by decide) (by decide) (by decide) rfl).mpr
    ⟨rfl, by decide⟩

/-- C10: membership of an element's Class Name in a rule's class set is raw
equality — only a value that is literally one of the class-name strings
is a member, so any whitespace, case, or type difference defeats the
rule — while the class-name aggregator stringifies and trims the same
value when counting. -/
theorem c10_raw_class_membership (names : List String) (cls : Val) :
    (valInStrList cls names = true ↔ ∃ s, cls = Val.str s ∧ names.contains s = true)
    ∧ (∀ (c : Criteria) (props : Val), c.class_names = names →
        valInStrList cls names = false → matchRule c props cls = false)
    ∧ (isNull cls = false →
        classBucket cls = (if pyStrip (pyStr cls) = "" then "Unknown" else pyStrip (pyStr cls))) := by
  refine ⟨?_, ?_, ?_⟩
  · cases cls <;> simp [valInStrList]
  · intro c props hcn hmem
    rw [matchRule, hcn, hmem]
    rfl
  · intro hnn
    simp [classBucket, hnn]

/-- Witness for C10: " Valve " (whitespace) and an integer are never members
of the class set, a rule over that set rejects them, while the aggregator
buckets the same " Valve " value as "Valve". -/
theorem c10_raw_class_membership_witness :
    valInStrList (Val.str " Valve ") ["Valve"] = false
    ∧ matchRule ⟨["Valve"], none, "", "#FF0000"⟩ (Val.dict []) (Val.str " Valve ") = false
    ∧ valInStrList (Val.int 5) ["5"] = false
    ∧ classBucket (Val.str " Valve ") = "Valve" := by
  have h1 := (c10_raw_class_membership ["Valve"] (Val.str " Valve ")).1
  have e1 : valInStrList (Val.str " Valve ") ["Valve"] = false := by
    cases hb : valInStrList (Val.str " Valve ") ["Valve"] with
    | false => rfl
    | true =>
      obtain ⟨s, hs, hc⟩ := h1.mp hb
      injection hs with hs2
      subst hs2
      exact absurd hc (by decide)
  have h2 := (c10_raw_class_membership ["5"] (Val.int 5)).1
  have e3 : valInStrList (Val.int 5) ["5"] = false := by
    cases hb : valInStrList (Val.int 5) ["5"] with
    | false => rfl
    | true =>
      obtain ⟨s, hs, hc⟩ := h2.mp hb
      exact nomatch hs
  refine ⟨e1, ?_, e3, ?_⟩
  · exact (c10_raw_class_membership ["Valve"] (Val.str " Valve ")).2.1
      ⟨["Valve"], none, "", "#FF0000"⟩ (Val.dict []) rfl e1
  · rw [(c10_raw_class_membership ["Valve"] (Val.str " Valve ")).2.2 rfl]
    decide

/-! Lemmas about the highlight resolver loop. -/

theorem highlightLoop_append (cs : List Criteria) (pre post : List Val) :
    highlightLoop cs (pre ++ post) = highlightLoop cs pre ++ highlightLoop cs post := by
  induction pre with
  | nil => rfl
  | cons obj rest ih =>
    rw [List.cons_append, highlightLoop, highlightLoop]
    cases elemHighlight cs obj with
    | none => exact ih
    | some h => rw [ih, List.cons_append]

theorem firstMatch_at (cs : List Criteria) (props cls : Val) :
    ∀ i (hi : i < cs.length), matchRule (cs.get ⟨i, hi⟩) props cls = true →
      (∀ k (hk : k < i), matchRule (cs.get ⟨k, Nat.lt_trans hk hi⟩) props cls = false) →
      firstMatch cs props cls = some (cs.get ⟨i, hi⟩) := by
  induction cs with
  | nil => intro i hi; exact absurd hi (Nat.not_lt_zero i)
  | cons c rest ih =>
    intro i hi hm hk
    cases i with
    | zero =>
      have hm2 : matchRule c props cls = true := hm
      show (if matchRule c props cls = true then some c else firstMatch rest props cls) = _
      rw [hm2]
      rfl
    | succ j =>
      have hc : matchRule c props cls = false := hk 0 (Nat.succ_pos j)
      show (if matchRule c props cls = true then some c else firstMatch rest props cls) = _
      rw [hc]
      show firstMatch rest props cls = some ((c :: rest).get ⟨j + 1, hi⟩)
      exact ih j (Nat.lt_of_succ_lt_succ hi) hm
        (fun k hkj => hk (k + 1) (Nat.succ_lt_succ hkj))

/-- C2: the resolver evaluates the rules in declaration order; for an
eligible element, if the rule at position i passes all its checks and
every earlier rule fails, the element contributes exactly one highlight
carrying rule i's colour — in particular, when two rules both match, the
first one's colour wins. -/
theorem c2_first_match_wins (cs : List Criteria) (pre post : List Val) (obj : Val)
    (props ext cls : Val) (i : Nat) (hi : i < cs.length)
    (helig : elemElig obj = some (props, ext, cls))
    (hmatch : matchRule (cs.get ⟨i, hi⟩) props cls = true)
    (hfirst : ∀ k (hk : k < i), matchRule (cs.get ⟨k, Nat.lt_trans hk hi⟩) props cls = false) :
    highlightLoop cs (pre ++ obj :: post) =
      highlightLoop cs pre ++ ⟨ext, (cs.get ⟨i, hi⟩).color⟩ :: highlightLoop cs post := by
  rw [highlightLoop_append]
  congr 1
  have he2 : elemHighlight cs obj = some ⟨ext, (cs.get ⟨i, hi⟩).color⟩ := by
    have h3 : elemHighlight cs obj =
        (match firstMatch cs props cls with
         | none => none
         | some c => some ⟨ext, c.color⟩) := by
      rw [elemHighlight, helig]
    rw [h3, firstMatch_at cs props cls i hi hmatch hfirst]
  rw [highlightLoop, he2]

/-- Witness for C2: two rules both match the element; the emitted highlight
carries the first rule's colour. -/
theorem c2_first_match_wins_witness :
    highlightLoop [⟨["Valve"], none, "", "#111111"⟩, ⟨["Valve"], none, "", "#222222"⟩]
        [Val.dict [("properties", Val.dict [("G", Val.dict [("Class Name", Val.str "Valve")])]),
                   ("externalId", Val.str "e1")]] =
      [⟨Val.str "e1", "#111111"⟩] := by
  have h := c2_first_match_wins
      [⟨["Valve"], none, "", "#111111"⟩, ⟨["Valve"], none, "", "#222222"⟩] [] []
      (Val.dict [("properties", Val.dict [("G", Val.dict [("Class Name", Val.str "Valve")])]),
                 ("externalId", Val.str "e1")])
      (Val.dict [("G", Val.dict [("Class Name", Val.str "Valve")])])
      (Val.str "e1") (Val.str "Valve")
      0 (by decide) rfl rfl (fun k hk => absurd hk (Nat.not_lt_zero k))
  simpa [highlightLoop] using h

/-- C7, as stated, is refuted here: two collection entries sharing the
externalId "e" both match the rule, so the output carries two entries
with the same externalId. -/
theorem c7_counterexample :
    (highlightLoop [⟨["Valve"], none, "", "#111111"⟩]
        [Val.dict [("properties", Val.dict [("G", Val.dict [("Class Name", Val.str "Valve")])]),
                   ("externalId", Val.str "e")],
         Val.dict [("properties", Val.dict [("G", Val.dict [("Class Name", Val.str "Valve")])]),
                   ("externalId", Val.str "e")]]).map (fun h => pyStr h.externalElementId) =
      ["e", "e"]
    ∧ ¬ (["e", "e"] : List String).Nodup :=
  ⟨rfl, by decide⟩

/-- The externalId of each element that passes the resolver's eligibility
checks, in collection order. -/
def eligExtIds (objs : List Val) : List Val :=
  objs.filterMap (fun o => (elemElig o).map (fun t => t.2.1))

theorem highlight_extIds_sublist (cs : List Criteria) (objs : List Val) :
    ((highlightLoop cs objs).map (fun h => h.externalElementId)).Sublist (eligExtIds objs) := by
  induction objs with
  | nil => simp [highlightLoop, eligExtIds]
  | cons obj rest ih =>
    rw [highlightLoop, eligExtIds, List.filterMap_cons]
    cases he : elemElig obj with
    | none =>
      have hh : elemHighlight cs obj = none := by rw [elemHighlight, he]
      rw [hh]
      exact ih
    | some t =>
      obtain ⟨props, ext, cls⟩ := t
      have h3 : elemHighlight cs obj =
          (match firstMatch cs props cls with
           | none => none
           | some c => some ⟨ext, c.color⟩) := by
        rw [elemHighlight, he]
      cases hfm : firstMatch cs props cls with
      | none =>
        have hh : elemHighlight cs obj = none := by rw [h3, hfm]
        rw [hh]
        exact ih.trans (List.sublist_cons_self _ _)
      | some c =>
        have hh : elemHighlight cs obj = some ⟨ext, c.color⟩ := by rw [h3, hfm]
        rw [hh, List.map_cons]
        exact List.Sublist.cons₂ _ ih

/-- C7 (amended): provided the externalIds of the eligible elements are
pairwise distinct, the resolver output contains at most one entry per
distinct externalId (its externalId column is duplicate-free).  Without
that proviso two collection entries sharing an externalId each produce an
assignment. -/
theorem c7_at_most_one_per_extid (cs : List Criteria) (objs : List Val)
    (h : (eligExtIds objs).Nodup) :
    ((highlightLoop cs objs).map (fun hl => hl.externalElementId)).Nodup :=
  (highlight_extIds_sublist cs objs).nodup h

/-- Witness for C7 (amended) at a two-element collection with distinct
externalIds. -/
theorem c7_at_most_one_per_extid_witness :
    ((highlightLoop [⟨["Valve"], none, "", "#111111"⟩]
        [Val.dict [("properties", Val.dict [("G", Val.dict [("Class Name", Val.str "Valve")])]),
                   ("externalId", Val.str "e1")],
         Val.dict [("properties", Val.dict [("G", Val.dict [("Class Name", Val.str "Valve")])]),
                   ("externalId", Val.str "e2")]]).map
      (fun hl => hl.externalElementId)).Nodup := by
  apply c7_at_most_one_per_extid
  rw [show eligExtIds
      [Val.dict [("properties", Val.dict [("G", Val.dict [("Class Name", Val.str "Valve")])]),
                 ("externalId", Val.str "e1")],
       Val.dict [("properties", Val.dict [("G", Val.dict [("Class Name", Val.str "Valve")])]),
                 ("externalId", Val.str "e2")]] = [Val.str "e1", Val.str "e2"] from rfl]
  refine List.nodup_cons.mpr ⟨?_, List.nodup_singleton _⟩
  intro hmem
  rw [List.mem_singleton] at hmem
  injection hmem with h2
  exact absurd h2 (by decide)

/-! Lemmas about the class-name counting loop. -/

/-- Sum of the values of a counts mapping. -/
def sumVals (m : List (String × Nat)) : Nat :=
  (m.map Prod.snd).sum

theorem getCount_cons_pos (p : String × Nat) (rest : List (String × Nat)) (k : String)
    (hp : p.1 = k) : getCount (p :: rest) k = p.2 := by
  rw [getCount, dictFind?, List.find?_cons_of_pos _ (by simpa using hp)]
  rfl

theorem getCount_cons_neg (p : String × Nat) (rest : List (String × Nat)) (k : String)
    (hp : p.1 ≠ k) : getCount (p :: rest) k = getCount rest k := by
  rw [getCount, getCount, dictFind?, dictFind?, List.find?_cons_of_neg _ (by simpa using hp)]

theorem sumVals_bump (m : List (String × Nat)) (k : String) :
    sumVals (bumpCount m k) = sumVals m + 1 := by
  induction m with
  | nil => rfl
  | cons p rest ih =>
    rw [bumpCount, dictInsert]
    by_cases hp : p.1 = k
    · rw [if_pos hp, getCount_cons_pos p rest k hp]
      simp [sumVals]
      omega
    · rw [if_neg hp, getCount_cons_neg p rest k hp]
      have ih2 : sumVals (dictInsert rest k (getCount rest k + 1)) = sumVals rest + 1 := ih
      simp [sumVals] at ih2 ⊢
      omega

theorem getCount_bump_self (m : List (String × Nat)) (k : String) :
    getCount (bumpCount m k) k = getCount m k + 1 := by
  rw [bumpCount, getCount, dictFind?_insert_self]

theorem getCount_bump_ne (m : List (String × Nat)) (k kq : String) (h : kq ≠ k) :
    getCount (bumpCount m k) kq = getCount m kq := by
  rw [bumpCount, getCount, dictFind?_insert_ne _ _ _ _ h]
  rfl

theorem classLoop_sum (objs : List Val) :
    ∀ counts, sumVals (classLoop objs counts) =
      sumVals counts + (objs.filterMap elemClassKey).length := by
  induction objs with
  | nil => intro counts; rfl
  | cons obj rest ih =>
    intro counts
    rw [classLoop, List.filterMap_cons]
    cases hk : elemClassKey obj with
    | none => rw [ih]
    | some k =>
      rw [ih, sumVals_bump, List.length_cons]
      omega

theorem classLoop_getCount (objs : List Val) :
    ∀ counts key, getCount (classLoop objs counts) key =
      getCount counts key + List.count key (objs.filterMap elemClassKey) := by
  induction objs with
  | nil => intro counts key; simp [classLoop]
  | cons obj rest ih =>
    intro counts key
    rw [classLoop, List.filterMap_cons]
    cases hk : elemClassKey obj with
    | none => rw [ih]
    | some k =>
      rw [ih]
      by_cases hkk : k = key
      · rw [hkk, getCount_bump_self]
        simp [List.count_cons]
        omega
      · rw [getCount_bump_ne _ _ _ (fun h => hkk h.symm)]
        simp [List.count_cons, hkk]

/-- C4: on a well-formed payload the class-name counts sum to the number of
collection elements passing the eligibility checks (a dict element with
a dict properties mapping and a P&ID alias resolving non-None); an
element whose Class Name is absent (None) or blank after trimming
resolves to the literal "Unknown" bucket, and the "Unknown" count is
exactly the number of eligible elements resolving to that bucket. -/
theorem c4_class_counts (objs : List Val) :
    build_class_name_counts (mkPayload objs) = Except.ok (classLoop objs [])
    ∧ sumVals (classLoop objs []) = (objs.filterMap elemClassKey).length
    ∧ getCount (classLoop objs []) "Unknown" = List.count "Unknown" (objs.filterMap elemClassKey)
    ∧ (∀ cn : Val, isNull cn = true ∨ pyStrip (pyStr cn) = "" → classBucket cn = "Unknown") := by
  refine ⟨rfl, ?_, ?_, ?_⟩
  · rw [classLoop_sum]
    simp [sumVals]
  · rw [classLoop_getCount]
    simp [getCount, dictFind?]
  · intro cn h
    rcases h with h | h
    · simp [classBucket, h]
    · by_cases hn : isNull cn
      · simp [classBucket, hn]
      · simp [classBucket, hn, h]

/-- Witness for C4 at a four-element collection: two eligible elements with
class "A" and a blank one, one ineligible element; plus the bucketing of
a None and a blank Class Name. -/
theorem c4_class_counts_witness :
    sumVals (classLoop
      [Val.dict [("properties",
          Val.dict [("G", Val.dict [("Class Name", Val.str "A"), ("PnPID", Val.int 1)])])],
       Val.dict [("properties", Val.dict [("G", Val.dict [("PnPID", Val.int 1)])])],
       Val.dict [("properties",
          Val.dict [("G", Val.dict [("Class Name", Val.str " "), ("PnPID", Val.int 1)])])],
       Val.str "junk"] []) =
      ([Val.dict [("properties",
          Val.dict [("G", Val.dict [("Class Name", Val.str "A"), ("PnPID", Val.int 1)])])],
        Val.dict [("properties", Val.dict [("G", Val.dict [("PnPID", Val.int 1)])])],
        Val.dict [("properties",
          Val.dict [("G", Val.dict [("Class Name", Val.str " "), ("PnPID", Val.int 1)])])],
        Val.str "junk"].filterMap elemClassKey).length
    ∧ classBucket Val.null = "Unknown"
    ∧ classBucket (Val.str "  ") = "Unknown" := by
  refine ⟨?_, ?_, ?_⟩
  · exact (c4_class_counts _).2.1
  · exact (c4_class_counts []).2.2.2 Val.null (Or.inl rfl)
  · exact (c4_class_counts []).2.2.2 (Val.str "  ") (Or.inr (by decide))

/-! Machinery for the tag-index dedup claim: the loop on eligible entries,
the keys it generates, and the spec-level expected keys. -/

/-- The (trimmed tag, record) pairs of the eligible elements, in collection
order. -/
def tagEntries (objs : List Val) : List (String × TagRecord) :=
  objs.filterMap (tagElig pidKeysDefault "Tag")

/-- The insertion loop of `build_tag_index`, restricted to eligible entries. -/
def insLoop : List (String × TagRecord) → List (String × TagRecord) → List (String × TagRecord)
  | [], out => out
  | (t, r) :: rest, out =>
    if hasKey out t then insLoop rest (dictInsert out (t ++ suffixOf r) r)
    else insLoop rest (dictInsert out t r)

theorem tagLoop_eq_insLoop (pk : List String) (tk : String) (objs : List Val) :
    ∀ out, tagLoop pk tk objs out = insLoop (objs.filterMap (tagElig pk tk)) out := by
  induction objs with
  | nil => intro out; rfl
  | cons obj rest ih =>
    intro out
    rw [List.filterMap_cons]
    cases he : tagElig pk tk obj with
    | none =>
      have step : tagLoop pk tk (obj :: rest) out = tagLoop pk tk rest out := by
        rw [tagLoop, he]
      rw [step, ih]
    | some p =>
      obtain ⟨t, r⟩ := p
      have step : tagLoop pk tk (obj :: rest) out =
          (if hasKey out t = true then tagLoop pk tk rest (dictInsert out (t ++ suffixOf r) r)
           else tagLoop pk tk rest (dictInsert out t r)) := by
        rw [tagLoop, he]
      rw [step, insLoop]
      by_cases hk : hasKey out t = true
      · rw [if_pos hk, if_pos hk, ih]
      · rw [if_neg hk, if_neg hk, ih]

/-- The key each eligible entry is inserted under, paired with its record:
the bare tag when the tag is not among the keys seen so far, the suffixed
tag otherwise (mirroring the `tag not in out` test of the loop). -/
def runAssign : List (String × TagRecord) → List String → List (String × TagRecord)
  | [], _ => []
  | (t, r) :: rest, seen =>
    if t ∈ seen then (t ++ suffixOf r, r) :: runAssign rest ((t ++ suffixOf r) :: seen)
    else (t, r) :: runAssign rest (t :: seen)

/-- Spec-level expected keys: the bare tag for the first occurrence of a tag
among the eligible entries, the suffixed tag for later occurrences. -/
def expAssign : List (String × TagRecord) → List String → List (String × TagRecord)
  | [], _ => []
  | (t, r) :: rest, prev =>
    (if t ∈ prev then (t ++ suffixOf r, r) else (t, r)) :: expAssign rest (t :: prev)

theorem runAssign_congr (entries : List (String × TagRecord)) :
    ∀ s1 s2, (∀ x : String, x ∈ s1 ↔ x ∈ s2) → runAssign entries s1 = runAssign entries s2 := by
  induction entries with
  | nil => intro s1 s2 h; rfl
  | cons q rest ih =>
    intro s1 s2 h
    obtain ⟨t, r⟩ := q
    by_cases ht : t ∈ s1
    · rw [runAssign, runAssign, if_pos ht, if_pos ((h t).mp ht),
        ih ((t ++ suffixOf r) :: s1) ((t ++ suffixOf r) :: s2)
          (fun x => by rw [List.mem_cons, List.mem_cons, h x])]
    · rw [runAssign, runAssign, if_neg ht, if_neg (fun hx => ht ((h t).mpr hx)),
        ih (t :: s1) (t :: s2) (fun x => by rw [List.mem_cons, List.mem_cons, h x])]

theorem insLoop_preserve (entries : List (String × TagRecord)) :
    ∀ (out : List (String × TagRecord)) (k : String),
      k ∉ (runAssign entries (out.map Prod.fst)).map Prod.fst →
      dictFind? (insLoop entries out) k = dictFind? out k := by
  induction entries with
  | nil => intro out k h; rfl
  | cons q rest ih =>
    intro out k h
    obtain ⟨t, r⟩ := q
    rw [insLoop]
    by_cases ht : t ∈ out.map Prod.fst
    · have hkey : hasKey out t = true := (hasKey_iff_mem_keys out t).mpr ht
      rw [if_pos hkey]
      rw [runAssign, if_pos ht, List.map_cons, List.mem_cons, not_or] at h
      obtain ⟨hne, hrest⟩ := h
      have hcongr : runAssign rest ((dictInsert out (t ++ suffixOf r) r).map Prod.fst) =
          runAssign rest ((t ++ suffixOf r) :: out.map Prod.fst) :=
        runAssign_congr rest _ _ (fun x => by rw [mem_keys_insert, List.mem_cons])
      rw [ih (dictInsert out (t ++ suffixOf r) r) k (by rw [hcongr]; exact hrest)]
      exact dictFind?_insert_ne _ _ _ _ hne
    · have hkey : ¬ hasKey out t = true := fun hx => ht ((hasKey_iff_mem_keys out t).mp hx)
      rw [if_neg hkey]
      rw [runAssign, if_neg ht, List.map_cons, List.mem_cons, not_or] at h
      obtain ⟨hne, hrest⟩ := h
      have hcongr : runAssign rest ((dictInsert out t r).map Prod.fst) =
          runAssign rest (t :: out.map Prod.fst) :=
        runAssign_congr rest _ _ (fun x => by rw [mem_keys_insert, List.mem_cons])
      rw [ih (dictInsert out t r) k (by rw [hcongr]; exact hrest)]
      exact dictFind?_insert_ne _ _ _ _ hne

theorem insLoop_lookup (entries : List (String × TagRecord)) :
    ∀ (out : List (String × TagRecord)),
      ((runAssign entries (out.map Prod.fst)).map Prod.fst).Nodup →
      ∀ p ∈ runAssign entries (out.map Prod.fst),
        dictFind? (insLoop entries out) p.1 = some p.2 := by
  induction entries with
  | nil => intro out hnd p hp; exact absurd hp (List.not_mem_nil p)
  | cons q rest ih =>
    intro out hnd p hp
    obtain ⟨t, r⟩ := q
    by_cases ht : t ∈ out.map Prod.fst
    · have hkey : hasKey out t = true := (hasKey_iff_mem_keys out t).mpr ht
      rw [runAssign, if_pos ht] at hnd hp
      rw [List.map_cons, List.nodup_cons] at hnd
      obtain ⟨hk0, hnd2⟩ := hnd
      rw [insLoop, if_pos hkey]
      have hcongr : runAssign rest ((dictInsert out (t ++ suffixOf r) r).map Prod.fst) =
          runAssign rest ((t ++ suffixOf r) :: out.map Prod.fst) :=
        runAssign_congr rest _ _ (fun x => by rw [mem_keys_insert, List.mem_cons])
      rcases List.mem_cons.mp hp with hp1 | hp2
      · subst hp1
        rw [insLoop_preserve rest _ _ (by rw [hcongr]; exact hk0)]
        exact dictFind?_insert_self out (t ++ suffixOf r) r
      · exact ih (dictInsert out (t ++ suffixOf r) r)
          (by rw [hcongr]; exact hnd2) p (by rw [hcongr]; exact hp2)
    · have hkey : ¬ hasKey out t = true := fun hx => ht ((hasKey_iff_mem_keys out t).mp hx)
      rw [runAssign, if_neg ht] at hnd hp
      rw [List.map_cons, List.nodup_cons] at hnd
      obtain ⟨hk0, hnd2⟩ := hnd
      rw [insLoop, if_neg hkey]
      have hcongr : runAssign rest ((dictInsert out t r).map Prod.fst) =
          runAssign rest (t :: out.map Prod.fst) :=
        runAssign_congr rest _ _ (fun x => by rw [mem_keys_insert, List.mem_cons])
      rcases List.mem_cons.mp hp with hp1 | hp2
      · subst hp1
        rw [insLoop_preserve rest _ _ (by rw [hcongr]; exact hk0)]
        exact dictFind?_insert_self out t r
      · exact ih (dictInsert out t r)
          (by rw [hcongr]; exact hnd2) p (by rw [hcongr]; exact hp2)

/-- No '#' occurs in the string. -/
def noHash (s : String) : Prop := ('#' : Char) ∉ s.data

instance (s : String) : Decidable (noHash s) :=
  inferInstanceAs (Decidable (('#' : Char) ∉ s.data))

theorem hash_mem_suffixed (t : String) (r : TagRecord) : ('#' : Char) ∈ (t ++ suffixOf r).data := by
  have hdata : (t ++ suffixOf r).data = t.data ++ (suffixOf r).data := rfl
  rw [hdata]
  apply List.mem_append_right
  rw [suffixOf]
  by_cases h : isNull r.objectid = true
  · rw [if_pos h]
    decide
  · rw [if_neg h]
    have hdata2 : ("#" ++ pyStr r.objectid).data = "#".data ++ (pyStr r.objectid).data := rfl
    rw [hdata2]
    exact List.mem_append_left _ (by decide)

theorem runAssign_eq_expAssign (entries : List (String × TagRecord)) :
    ∀ seen prev,
      (∀ p ∈ entries, noHash p.1) →
      (∀ s : String, noHash s → (s ∈ seen ↔ s ∈ prev)) →
      runAssign entries seen = expAssign entries prev := by
  induction entries with
  | nil => intro seen prev h1 h2; rfl
  | cons q rest ih =>
    intro seen prev h1 h2
    obtain ⟨t, r⟩ := q
    have hth : noHash t := h1 (t, r) (List.mem_cons_self _ _)
    have h1r : ∀ p ∈ rest, noHash p.1 := fun p hp => h1 p (List.mem_cons_of_mem _ hp)
    by_cases ht : t ∈ seen
    · have ht2 : t ∈ prev := (h2 t hth).mp ht
      rw [runAssign, expAssign, if_pos ht, if_pos ht2]
      congr 1
      apply ih _ _ h1r
      intro s hs
      rw [List.mem_cons, List.mem_cons]
      constructor
      · rintro (hsk | hs1)
        · exact absurd (hsk ▸ hash_mem_suffixed t r) hs
        · exact Or.inr ((h2 s hs).mp hs1)
      · rintro (hst | hsp)
        · subst hst; exact Or.inr ht
        · exact Or.inr ((h2 s hs).mpr hsp)
    · have ht2 : t ∉ prev := fun hx => ht ((h2 t hth).mpr hx)
      rw [runAssign, expAssign, if_neg ht, if_neg ht2]
      congr 1
      apply ih _ _ h1r
      intro s hs
      rw [List.mem_cons, List.mem_cons, h2 s hs]

theorem expAssign_getq (entries : List (String × TagRecord)) :
    ∀ prev i t r, entries.get? i = some (t, r) →
      (expAssign entries prev).get? i =
        some (if t ∈ ((entries.take i).map Prod.fst).reverse ++ prev
              then (t ++ suffixOf r, r) else (t, r)) := by
  induction entries with
  | nil => intro prev i t r h; simp at h
  | cons q rest ih =>
    intro prev i t r h
    obtain ⟨t0, r0⟩ := q
    cases i with
    | zero =>
      have h2 : (t0, r0) = (t, r) := by
        have := h
        rw [List.get?_cons_zero] at this
        exact Option.some.inj this
      injection h2 with ht0 hr0
      subst ht0
      subst hr0
      rw [expAssign, List.get?_cons_zero, List.take_zero, List.map_nil,
        List.reverse_nil, List.nil_append]
    | succ j =>
      rw [List.get?_cons_succ] at h
      rw [expAssign, List.get?_cons_succ, ih (t0 :: prev) j t r h,
        List.take_succ_cons, List.map_cons, List.reverse_cons, List.append_assoc,
        List.singleton_append]

/-- C1 (amended): provided no eligible tag contains the character '#' and
the generated keys are pairwise distinct, the first eligible element with
a given trimmed tag owns the bare tag key, and every later eligible
element with the same tag is stored under "tag#objectid" (or "tag#dup"
when its objectid is None) — the first occurrence's bare-key entry is
never overwritten.  (Without the proviso a later suffixed key can
collide with, and overwrite, an earlier bare or suffixed entry.) -/
theorem c1_tag_dedup (objs : List Val) (out : List (String × TagRecord))
    (hout : build_tag_index (mkPayload objs) = Except.ok out)
    (hhash : ∀ p ∈ tagEntries objs, noHash p.1)
    (hnodup : ((expAssign (tagEntries objs) []).map Prod.fst).Nodup) :
    ∀ (i : Nat) (t : String) (r : TagRecord), (tagEntries objs).get? i = some (t, r) →
      dictFind? out
        (if t ∈ ((tagEntries objs).take i).map Prod.fst then t ++ suffixOf r else t) =
        some r := by
  have hb : build_tag_index (mkPayload objs) =
      Except.ok (tagLoop pidKeysDefault "Tag" objs []) := rfl
  rw [hb] at hout
  have hout2 : tagLoop pidKeysDefault "Tag" objs [] = out := Except.ok.inj hout
  have hloop : out = insLoop (tagEntries objs) [] := by
    rw [← hout2, tagLoop_eq_insLoop]
    rfl
  have hrun : runAssign (tagEntries objs) [] = expAssign (tagEntries objs) [] :=
    runAssign_eq_expAssign (tagEntries objs) [] [] hhash (fun s hs => Iff.rfl)
  have hempty : (([] : List (String × TagRecord)).map Prod.fst) = ([] : List String) := rfl
  intro i t r hget
  have hkey := expAssign_getq (tagEntries objs) [] i t r hget
  have hmem : (if t ∈ (((tagEntries objs).take i).map Prod.fst).reverse ++ []
        then (t ++ suffixOf r, r) else (t, r)) ∈ expAssign (tagEntries objs) [] :=
    List.get?_mem hkey
  have hlook := insLoop_lookup (tagEntries objs) []
      (by rw [hempty, hrun]; exact hnodup) _ (by rw [hempty, hrun]; exact hmem)
  rw [hloop]
  by_cases hc : t ∈ ((tagEntries objs).take i).map Prod.fst
  · have hc2 : t ∈ (((tagEntries objs).take i).map Prod.fst).reverse ++ [] := by
      rw [List.append_nil, List.mem_reverse]
      exact hc
    rw [if_pos hc]
    rw [if_pos hc2] at hlook
    exact hlook
  · have hc2 : t ∉ (((tagEntries objs).take i).map Prod.fst).reverse ++ [] := by
      rw [List.append_nil, List.mem_reverse]
      exact hc
    rw [if_neg hc]
    rw [if_neg hc2] at hlook
    exact hlook

/-- C1, as stated, is refuted here: the first element has trimmed tag "A#5"
and owns the bare key "A#5"; two later elements have tag "A" with
objectids 3 and 5, and the third element's suffixed key "A" + "#5"
overwrites the bare-key entry of the first element, whose record
(objectid 10) is lost from the index. -/
theorem c1_counterexample :
    build_tag_index (mkPayload
      [Val.dict [("properties",
          Val.dict [("G", Val.dict [("Tag", Val.str "A#5"), ("PnPID", Val.int 1)])]),
        ("objectid", Val.int 10)],
       Val.dict [("properties",
          Val.dict [("G", Val.dict [("Tag", Val.str "A"), ("PnPID", Val.int 1)])]),
        ("objectid", Val.int 3)],
       Val.dict [("properties",
          Val.dict [("G", Val.dict [("Tag", Val.str "A"), ("PnPID", Val.int 1)])]),
        ("objectid", Val.int 5)]]) =
      Except.ok
        [("A#5", ⟨Val.int 5, Val.null, Val.int 1,
            Val.dict [("G", Val.dict [("Tag", Val.str "A"), ("PnPID", Val.int 1)])]⟩),
         ("A", ⟨Val.int 3, Val.null, Val.int 1,
            Val.dict [("G", Val.dict [("Tag", Val.str "A"), ("PnPID", Val.int 1)])]⟩)]
    ∧ tagElig pidKeysDefault "Tag"
        (Val.dict [("properties",
            Val.dict [("G", Val.dict [("Tag", Val.str "A#5"), ("PnPID", Val.int 1)])]),
          ("objectid", Val.int 10)]) =
      some ("A#5", ⟨Val.int 10, Val.null, Val.int 1,
          Val.dict [("G", Val.dict [("Tag", Val.str "A#5"), ("PnPID", Val.int 1)])]⟩)
    ∧ (Val.int 5 : Val) ≠ Val.int 10 := by
  refine ⟨rfl, rfl, ?_⟩
  intro h
  injection h with h2
  exact absurd h2 (by decide)

/-- Witness for C1 (amended): the spec's own example — two elements with
trimmed tag "AV-309" and objectids 1 and 2 — yields both "AV-309" (first
element) and "AV-309#2" (second), with the first entry intact. -/
theorem c1_tag_dedup_witness :
    dictFind? (tagLoop pidKeysDefault "Tag"
      [Val.dict [("properties",
          Val.dict [("G", Val.dict [("Tag", Val.str "AV-309"), ("PnPID", Val.int 714)])]),
        ("objectid", Val.int 1)],
       Val.dict [("properties",
          Val.dict [("G", Val.dict [("Tag", Val.str "AV-309"), ("PnPID", Val.int 714)])]),
        ("objectid", Val.int 2)]] []) "AV-309" =
      some ⟨Val.int 1, Val.null, Val.int 714,
        Val.dict [("G", Val.dict [("Tag", Val.str "AV-309"), ("PnPID", Val.int 714)])]⟩
    ∧ dictFind? (tagLoop pidKeysDefault "Tag"
      [Val.dict [("properties",
          Val.dict [("G", Val.dict [("Tag", Val.str "AV-309"), ("PnPID", Val.int 714)])]),
        ("objectid", Val.int 1)],
       Val.dict [("properties",
          Val.dict [("G", Val.dict [("Tag", Val.str "AV-309"), ("PnPID", Val.int 714)])]),
        ("objectid", Val.int 2)]] []) "AV-309#2" =
      some ⟨Val.int 2, Val.null, Val.int 714,
        Val.dict [("G", Val.dict [("Tag", Val.str "AV-309"), ("PnPID", Val.int 714)])]⟩ := by
  constructor
  · exact c1_tag_dedup
      [Val.dict [("properties",
          Val.dict [("G", Val.dict [("Tag", Val.str "AV-309"), ("PnPID", Val.int 714)])]),
        ("objectid", Val.int 1)],
       Val.dict [("properties",
          Val.dict [("G", Val.dict [("Tag", Val.str "AV-309"), ("PnPID", Val.int 714)])]),
        ("objectid", Val.int 2)]] _ rfl (by decide) (by decide) 0 "AV-309"
      ⟨Val.int 1, Val.null, Val.int 714,
        Val.dict [("G", Val.dict [("Tag", Val.str "AV-309"), ("PnPID", Val.int 714)])]⟩ rfl
  · exact c1_tag_dedup
      [Val.dict [("properties",
          Val.dict [("G", Val.dict [("Tag", Val.str "AV-309"), ("PnPID", Val.int 714)])]),
        ("objectid", Val.int 1)],
       Val.dict [("properties",
          Val.dict [("G", Val.dict [("Tag", Val.str "AV-309"), ("PnPID", Val.int 714)])]),
        ("objectid", Val.int 2)]] _ rfl (by decide) (by decide) 1 "AV-309"
      ⟨Val.int 2, Val.null, Val.int 714,
        Val.dict [("G", Val.dict [("Tag", Val.str "AV-309"), ("PnPID", Val.int 714)])]⟩ rfl

end Plant3d
